import Mathlib

/-!
Verification of the `FocusedContactScraper` contact-extraction script
(`src/main.py`).

The Python program is shallowly embedded below:

* Python `re` pattern matching is embedded as a small backtracking matcher
  over a pattern AST (`Re`).  The matcher enumerates match candidates in
  Python's backtracking priority order (alternatives left to right, greedy
  quantifiers preferring longer repetitions), so the head of the candidate
  list is exactly the match Python's engine returns.  Recursion is bounded
  by a fuel argument chosen larger than the maximal recursion depth, which
  keeps every definition structurally recursive and kernel-evaluable.
  Character classes such as `\d` are modelled over ASCII.
* `BeautifulSoup` documents are embedded as a flat list of elements in
  document order, each carrying its tag name, optional `class` and `id`
  attribute strings, and the result of `get_text(strip=True)`; the whole
  document also carries the result of `soup.get_text()`.
* `pandas.DataFrame(...).to_csv(..., index=False)` is embedded as a list
  of output lines; the data frame's columns come from the record keys, so
  an empty record list yields a frame with no columns.
* The `try/except` structure of `scrape_page` is embedded by making the
  fetch-and-parse outcome an explicit sum type (`FetchOutcome`).
-/

/-- Pattern AST covering the constructs used by the script's regexes:
character classes, concatenation, alternation, and counted repetition
`rep r lo hi` (`hi = none` means unbounded, so `r+` is `rep r 1 none`,
`r?` is `alt r eps`, `r{3}` is `rep r 3 (some 3)`). -/
inductive Re : Type where
  | eps : Re
  | cls : (Char → Bool) → Re
  | seq : Re → Re → Re
  | alt : Re → Re → Re
  | rep : Re → Nat → Option Nat → Re

/-- Backtracking matcher.  `reMatch fuel re s` returns every way `re` can
match a prefix of `s`, as `(consumed, rest)` pairs, in Python's
backtracking priority order: for `alt` the left branch first, for `rep`
more repetitions first (greedy).  A repetition step is only taken when the
body consumed at least one character, as Python's engine never loops on an
empty body match for these patterns.  `fuel` bounds the recursion depth;
every recursive call decreases it, so the definition is structural. -/
def reMatch : Nat → Re → List Char → List (List Char × List Char)
  | 0, _, _ => []
  | _ + 1, .eps, s => [([], s)]
  | _ + 1, .cls p, s =>
    match s with
    | [] => []
    | c :: t => if p c then [([c], t)] else []
  | f + 1, .seq a b, s =>
    (reMatch f a s).flatMap fun uv =>
      (reMatch f b uv.2).map fun vw => (uv.1 ++ vw.1, vw.2)
  | f + 1, .alt a b, s => reMatch f a s ++ reMatch f b s
  | f + 1, .rep r lo hi, s =>
    let more :=
      if hi = some 0 then []
      else
        (reMatch f r s).flatMap fun uv =>
          if uv.1.isEmpty then []
          else
            (reMatch f (.rep r (lo - 1) (hi.map (· - 1))) uv.2).map fun vw =>
              (uv.1 ++ vw.1, vw.2)
    if lo = 0 then more ++ [([], s)] else more

/-- Structural size of a pattern, used only to pick a sufficient fuel. -/
def Re.size : Re → Nat
  | .eps => 1
  | .cls _ => 1
  | .seq a b => a.size + b.size + 1
  | .alt a b => a.size + b.size + 1
  | .rep r _ _ => r.size + 1

/-- Fuel that exceeds the matcher's maximal recursion depth on `s`
(each repetition level consumes at least one character). -/
def matchFuel (re : Re) (s : List Char) : Nat :=
  (re.size + 1) * (s.length + 2) + 1

/-- The match Python's engine returns at the current position: the first
candidate in backtracking priority order. -/
def pyMatch (re : Re) (s : List Char) : Option (List Char × List Char) :=
  (reMatch (matchFuel re s) re s).head?

/-- One scan step list of `re.findall`: try to match at the current
position; on a non-empty match continue after it, on an empty match or a
failure advance one character.  `fuel` bounds the number of scan steps. -/
def scanAll : Nat → Re → List Char → List (List Char)
  | 0, _, _ => []
  | _ + 1, re, [] =>
    match pyMatch re [] with
    | some (u, _) => [u]
    | none => []
  | f + 1, re, c :: s' =>
    match pyMatch re (c :: s') with
    | some (u, t) => if u.isEmpty then u :: scanAll f re s' else u :: scanAll f re t
    | none => scanAll f re s'

/-- `re.findall(pattern, s)`: all non-overlapping matches, scanning left
to right (the script's patterns contain no capture groups, so `findall`
returns whole matches). -/
def findAll (re : Re) (s : List Char) : List (List Char) :=
  scanAll (s.length + 1) re s

/-- Python's substring test `pat in hay`. -/
def strContains (hay pat : String) : Bool :=
  (List.range (hay.data.length + 1)).any fun i => pat.data.isPrefixOf (hay.data.drop i)

/-- Python's `str.lower()` (ASCII case folding), mapped over the
character list so that it evaluates inside the kernel. -/
def strLower (s : String) : String :=
  String.mk (s.data.map Char.toLower)

/-- ASCII letter or digit, as matched by the literal ranges `a-zA-Z0-9`. -/
def isAsciiAlphanum (c : Char) : Bool :=
  c.isAlpha || c.isDigit

/-- The separator class `[-. ]` of the phone patterns. -/
def isPhoneSep (c : Char) : Bool :=
  c == '-' || c == '.' || c == ' '

/-- The whitespace class `\s` (ASCII part). -/
def isPyWhitespace (c : Char) : Bool :=
  c == ' ' || c == '\t' || c == '\n' || c == '\x0b' || c == '\x0c' || c == '\r'

/-- `r?` (greedy option). -/
def Re.opt (r : Re) : Re := .alt r .eps

/-- A single literal character. -/
def Re.lit (c : Char) : Re := .cls (· == c)

/-- Right-nested concatenation of a pattern list. -/
def Re.seqs : List Re → Re
  | [] => .eps
  | [r] => r
  | r :: rs => .seq r (Re.seqs rs)

/-- The email pattern `[a-zA-Z0-9._%+-]+@[a-zA-Z0-9.-]+\.[a-zA-Z]{2,}`
from `extract_emails`. -/
def emailPattern : Re :=
  Re.seqs
    [ .rep (.cls fun c => isAsciiAlphanum c || c == '.' || c == '_' || c == '%' || c == '+' || c == '-') 1 none
    , Re.lit '@'
    , .rep (.cls fun c => isAsciiAlphanum c || c == '.' || c == '-') 1 none
    , Re.lit '.'
    , .rep (.cls Char.isAlpha) 2 none ]

/-- Phone pattern (a), `\+?\d{1,3}[-. ]?\(?\d{3}\)?[-. ]?\d{3}[-. ]?\d{4}`,
split as the optional leading `\+?` followed by the plus-free remainder. -/
def phoneTailA : Re :=
  Re.seqs
    [ .rep (.cls Char.isDigit) 1 (some 3)
    , Re.opt (.cls isPhoneSep)
    , Re.opt (Re.lit '(')
    , .rep (.cls Char.isDigit) 3 (some 3)
    , Re.opt (Re.lit ')')
    , Re.opt (.cls isPhoneSep)
    , .rep (.cls Char.isDigit) 3 (some 3)
    , Re.opt (.cls isPhoneSep)
    , .rep (.cls Char.isDigit) 4 (some 4) ]

/-- Phone pattern (a), international format. -/
def phonePatternA : Re :=
  .seq (Re.opt (Re.lit '+')) phoneTailA

/-- Phone pattern (b), `\d{3}[-. ]?\d{3}[-. ]?\d{4}` (US format). -/
def phonePatternB : Re :=
  Re.seqs
    [ .rep (.cls Char.isDigit) 3 (some 3)
    , Re.opt (.cls isPhoneSep)
    , .rep (.cls Char.isDigit) 3 (some 3)
    , Re.opt (.cls isPhoneSep)
    , .rep (.cls Char.isDigit) 4 (some 4) ]

/-- Phone pattern (c), `\(\d{3}\)\s*\d{3}[-. ]?\d{4}`. -/
def phonePatternC : Re :=
  Re.seqs
    [ Re.lit '('
    , .rep (.cls Char.isDigit) 3 (some 3)
    , Re.lit ')'
    , .rep (.cls isPyWhitespace) 0 none
    , .rep (.cls Char.isDigit) 3 (some 3)
    , Re.opt (.cls isPhoneSep)
    , .rep (.cls Char.isDigit) 4 (some 4) ]

/-- The `phone_patterns` list of `extract_phone_numbers`, in source
order. -/
def phone_patterns : List Re :=
  [phonePatternA, phonePatternB, phonePatternC]

/-- First-occurrence de-duplication with an explicit seen accumulator;
`dedupKeepFirst` below is the entry point. -/
def dedupAux [DecidableEq α] : List α → List α → List α
  | _, [] => []
  | seen, x :: xs =>
    if x ∈ seen then dedupAux seen xs else x :: dedupAux (x :: seen) xs

/-- De-duplication keeping the first occurrence of each element, in
first-seen order. -/
def dedupKeepFirst [DecidableEq α] (l : List α) : List α :=
  dedupAux [] l

/-- The placeholder-domain list of `extract_emails`. -/
def fakeDomains : List String :=
  ["example.com", "domain.com"]

/-- `FocusedContactScraper.extract_emails`: find all matches of the email
pattern, de-duplicate (`list(set(...))`; a Python set's iteration order is
unspecified and is modelled as first-occurrence order), then drop matches
whose lowercase form contains a placeholder domain. -/
def extract_emails (text : String) : List String :=
  let emails := dedupKeepFirst ((findAll emailPattern text.data).map String.mk)
  emails.filter fun email =>
    !(fakeDomains.any fun fake => strContains (strLower email) fake)

/-- `re.sub(r'[^\d+]', '', phone)`: keep only digits and `+`. -/
def cleanPhone (phone : String) : String :=
  String.mk (phone.data.filter fun c => c.isDigit || c == '+')

/-- `FocusedContactScraper.extract_phone_numbers`: concatenate the match
lists of the three patterns in order, clean each raw match, and append a
cleaned string only when it is not already present. -/
def extract_phone_numbers (text : String) : List String :=
  let phones := phone_patterns.foldl
    (fun acc pattern => acc ++ (findAll pattern text.data).map String.mk) []
  phones.foldl
    (fun cleaned_phones phone =>
      let cleaned := cleanPhone phone
      if cleaned ∈ cleaned_phones then cleaned_phones
      else cleaned_phones ++ [cleaned])
    []

/-- A parsed element, as seen by the script: tag name, optional `class`
and `id` attribute strings, and the value of `get_text(strip=True)`.
(BeautifulSoup documents are modelled as a flat element list in document
order; multi-valued `class` attributes are modelled as one string.) -/
structure Elem where
  tag : String
  classAttr : Option String
  idAttr : Option String
  stripText : String
deriving DecidableEq

/-- A parsed document: its elements in document order plus the value of
`soup.get_text()`. -/
structure Doc where
  elements : List Elem
  fullText : String
deriving DecidableEq

/-- The `contact_terms` list of `find_contact_sections`, in source
order. -/
def contact_terms : List String :=
  ["contact", "address", "phone", "tel", "email", "reach", "footer"]

/-- The attribute predicate `lambda x: x and term in x.lower() if x else
False` passed to `find_all`: false for a missing or empty attribute,
otherwise a case-insensitive substring test. -/
def attrMatches (term : String) : Option String → Bool
  | none => false
  | some x => if x = "" then false else strContains (strLower x) term

/-- The elements gathered in one iteration of the `for term in
contact_terms` loop: class matches, then id matches, then every `<footer>`
element, then `<section>` elements with a matching class, each group in
document order (`find_all` returns document order). -/
def elementsForTerm (doc : Doc) (term : String) : List Elem :=
  (doc.elements.filter fun e => attrMatches term e.classAttr)
    ++ (doc.elements.filter fun e => attrMatches term e.idAttr)
    ++ (doc.elements.filter fun e => e.tag == "footer")
    ++ (doc.elements.filter fun e => e.tag == "section" && attrMatches term e.classAttr)

/-- `FocusedContactScraper.find_contact_sections`.  In the Python source
the name `elements` is rebound (not extended) at the start of each
`for term in contact_terms` iteration, and the text-extraction loop sits
after the whole term loop, so only the elements gathered for the last
term, `"footer"`, survive to text extraction.  The fold below reproduces
that rebinding.  Text extraction keeps the non-empty stripped texts in
element order. -/
def find_contact_sections (doc : Doc) : List String :=
  let elements := contact_terms.foldl (fun _ term => elementsForTerm doc term) []
  (elements.map Elem.stripText).filter fun text => !(text == "")

/-- The text handed to the extractors in `scrape_page`:
`' '.join(contact_sections) if contact_sections else soup.get_text()`. -/
def allText (doc : Doc) : String :=
  let contact_sections := find_contact_sections doc
  if contact_sections.isEmpty then doc.fullText
  else String.intercalate " " contact_sections

/-- One row of the output table. -/
structure Record where
  url : String
  emails : String
  phone_numbers : String
  source : String
deriving DecidableEq

/-- Outcome of the body of `scrape_page`'s `try` block for one URL:
either the fetched-and-parsed document, or a raised
`requests.exceptions.RequestException` (carrying `str(e)`), or any other
raised `Exception` (carrying `str(e)`). -/
inductive FetchOutcome where
  | success (doc : Doc)
  | requestError (desc : String)
  | otherError (desc : String)
deriving DecidableEq

/-- `FocusedContactScraper.scrape_page`.  The `try/except` structure is
embedded by matching on the explicit outcome; the function is total, so a
call never propagates an exception. -/
def scrape_page (url : String) (outcome : FetchOutcome) : Record :=
  match outcome with
  | .success doc =>
    let contact_sections := find_contact_sections doc
    let text := allText doc
    let emails := extract_emails text
    let phones := extract_phone_numbers text
    { url := url
      emails := if emails.isEmpty then "No email found"
                else String.intercalate ", " emails
      phone_numbers := if phones.isEmpty then "No phone found"
                       else String.intercalate ", " phones
      source := if contact_sections.isEmpty then "Full page scan"
                else "Contact section" }
  | .requestError desc =>
    { url := url, emails := "Connection error"
      phone_numbers := "Connection error", source := desc }
  | .otherError desc =>
    { url := url, emails := "Error", phone_numbers := "Error", source := desc }

/-- `FocusedContactScraper.scrape_multiple_urls`, with the network
modelled as a function from URL to fetch outcome (the `time.sleep` call
has no observable effect on the produced records). -/
def scrape_multiple_urls (fetch : String → FetchOutcome) (urls : List String) : List Record :=
  urls.map fun url => scrape_page url (fetch url)

/-- Pandas CSV field quoting (QUOTE_MINIMAL): quote a field containing a
delimiter, quote, or line break, doubling inner quotes. -/
def csvField (s : String) : String :=
  if s.data.any (fun c => c == ',' || c == '"' || c == '\n' || c == '\r') then
    "\"" ++ String.mk (s.data.flatMap fun c => if c == '"' then ['"', '"'] else [c]) ++ "\""
  else s

/-- One CSV data row for a record. -/
def recordRow (r : Record) : String :=
  String.intercalate ","
    [csvField r.url, csvField r.emails, csvField r.phone_numbers, csvField r.source]

/-- The CSV header row produced for a non-empty record list. -/
def csvHeader : String := "url,emails,phone_numbers,source"

/-- The columns of `pd.DataFrame(results)`: taken from the record keys
(every record produced by `scrape_page` has the same four keys in the same
insertion order); an empty record list yields a frame with no columns. -/
def dfColumns (records : List Record) : List String :=
  if records.isEmpty then [] else ["url", "emails", "phone_numbers", "source"]

/-- The lines written by `pd.DataFrame(results).to_csv(output_file,
index=False, encoding='utf-8')`: the header line joins the column names,
so a frame with no columns writes a single empty line and no data rows. -/
def to_csv (records : List Record) : List String :=
  if records.isEmpty then [""]
  else csvHeader :: records.map recordRow

/-- The `headers` dict set in `FocusedContactScraper.__init__`. -/
def defaultHeaders : List (String × String) :=
  [("User-Agent", "Mozilla/5.0 (Windows NT 10.0; Win64; x64) AppleWebKit/537.36 (KHTML, like Gecko) Chrome/91.0.4472.124 Safari/537.36")]

/-- The scraper object's state after `__init__`. -/
structure FocusedContactScraper where
  headers : List (String × String)
  delay : Nat
deriving DecidableEq

/-- The default value of the `delay` parameter in
`FocusedContactScraper.__init__(self, delay: int = 1)`. -/
def initDefaultDelay : Nat := 1

/-- `FocusedContactScraper.__init__` with an explicit `delay` argument. -/
def mkScraper (delay : Nat) : FocusedContactScraper :=
  { headers := defaultHeaders, delay := delay }

/-- `FocusedContactScraper()` — construction with the `delay` argument
left to its default. -/
def mkScraperDefault : FocusedContactScraper :=
  mkScraper initDefaultDelay

/-- The concatenation of the three patterns' raw `findall` results in
source order (pattern a, then b, then c). -/
def phonesRaw (text : String) : List String :=
  (findAll phonePatternA text.data).map String.mk
    ++ (findAll phonePatternB text.data).map String.mk
    ++ (findAll phonePatternC text.data).map String.mk

/-- `ReHasChar re c` holds when some character class of `re` accepts `c`;
every character a match consumes satisfies it. -/
def ReHasChar : Re → Char → Prop
  | .eps, _ => False
  | .cls p, c => p c = true
  | .seq a b, c => ReHasChar a c ∨ ReHasChar b c
  | .alt a b, c => ReHasChar a c ∨ ReHasChar b c
  | .rep r _ _, c => ReHasChar r c

/-- A cleaned phone string: a possibly empty digit string with at most one
leading `+`. -/
def phoneDigitsShape (p : String) : Prop :=
  ∃ ds : List Char, (∀ c ∈ ds, c.isDigit = true) ∧ (p.data = ds ∨ p.data = '+' :: ds)

/-- An element the region-selection heuristic targets: a contact-term
substring in its class or id, a `<footer>` tag, or a `<section>` with a
contact-term class. -/
def isContactLike (e : Elem) : Bool :=
  (contact_terms.any fun term => attrMatches term e.classAttr || attrMatches term e.idAttr)
    || e.tag == "footer"
    || (e.tag == "section" && contact_terms.any fun term => attrMatches term e.classAttr)

/-- A document whose only element carries `class="contact"` and contact
text, with no footer anywhere. -/
def contactClassDoc : Doc :=
  { elements := [{ tag := "div", classAttr := some "contact", idAttr := none
                 , stripText := "Email: sales@acme.org" }]
  , fullText := "Email: sales@acme.org" }

/-- A document whose only element is a `<footer>` containing an email and
no contact-like class or id anywhere. -/
def footerEmailDoc : Doc :=
  { elements := [{ tag := "footer", classAttr := none, idAttr := none
                 , stripText := "Email: sales@acme.org" }]
  , fullText := "unrelated body text" }

/-- A document whose contact-like elements (a footer and a `Contact-Us`
div) all have empty stripped text, while the full page text holds a phone
number. -/
def emptyMarkersDoc : Doc :=
  { elements := [ { tag := "footer", classAttr := none, idAttr := none, stripText := "" }
                , { tag := "div", classAttr := some "Contact-Us", idAttr := none, stripText := "" } ]
  , fullText := "call 415-555-2671" }

/-- A fetch environment in which every URL fails with a connection
error. -/
def failingFetch : String → FetchOutcome :=
  fun _ => .requestError "connection refused"

/-! ## Properties of the ordered de-duplication -/

theorem dedupAux_congr [DecidableEq α] (l : List α) :
    ∀ s₁ s₂ : List α, (∀ a, a ∈ s₁ ↔ a ∈ s₂) → dedupAux s₁ l = dedupAux s₂ l := by
  induction l with
  | nil => intro s₁ s₂ _; rfl
  | cons x xs ih =>
    intro s₁ s₂ h
    by_cases hx : x ∈ s₁
    · rw [dedupAux, dedupAux, if_pos hx, if_pos ((h x).mp hx)]
      exact ih s₁ s₂ h
    · rw [dedupAux, dedupAux, if_neg hx, if_neg (fun hx₂ => hx ((h x).mpr hx₂))]
      refine congrArg (x :: ·) (ih _ _ fun a => ?_)
      simp only [List.mem_cons]
      exact or_congr Iff.rfl (h a)

theorem mem_of_mem_dedupAux [DecidableEq α] (l : List α) :
    ∀ (seen : List α) (x : α), x ∈ dedupAux seen l → x ∈ l := by
  induction l with
  | nil => intro seen x h; simp [dedupAux] at h
  | cons y ys ih =>
    intro seen x h
    rw [dedupAux] at h
    by_cases hy : y ∈ seen
    · rw [if_pos hy] at h
      exact List.mem_cons_of_mem y (ih seen x h)
    · rw [if_neg hy] at h
      rcases List.mem_cons.mp h with h | h
      · exact h ▸ List.mem_cons_self y ys
      · exact List.mem_cons_of_mem y (ih (y :: seen) x h)

theorem not_mem_seen_of_mem_dedupAux [DecidableEq α] (l : List α) :
    ∀ (seen : List α) (x : α), x ∈ dedupAux seen l → x ∉ seen := by
  induction l with
  | nil => intro seen x h; simp [dedupAux] at h
  | cons y ys ih =>
    intro seen x h
    rw [dedupAux] at h
    by_cases hy : y ∈ seen
    · rw [if_pos hy] at h
      exact ih seen x h
    · rw [if_neg hy] at h
      rcases List.mem_cons.mp h with h | h
      · exact h ▸ hy
      · intro hx
        exact ih (y :: seen) x h (List.mem_cons_of_mem y hx)

theorem dedupAux_nodup [DecidableEq α] (l : List α) :
    ∀ seen : List α, (dedupAux seen l).Nodup := by
  induction l with
  | nil => intro seen; simp [dedupAux]
  | cons y ys ih =>
    intro seen
    rw [dedupAux]
    by_cases hy : y ∈ seen
    · rw [if_pos hy]; exact ih seen
    · rw [if_neg hy]
      refine List.nodup_cons.mpr ⟨fun hmem => ?_, ih (y :: seen)⟩
      exact not_mem_seen_of_mem_dedupAux ys (y :: seen) y hmem (List.mem_cons_self y seen)

theorem foldl_dedupAux [DecidableEq β] (g : α → β) (l : List α) :
    ∀ acc : List β,
      l.foldl (fun cp x => if g x ∈ cp then cp else cp ++ [g x]) acc
        = acc ++ dedupAux acc (l.map g) := by
  induction l with
  | nil => intro acc; simp [dedupAux]
  | cons x xs ih =>
    intro acc
    rw [List.foldl_cons, List.map_cons, dedupAux]
    by_cases hx : g x ∈ acc
    · rw [if_pos hx, if_pos hx]
      exact ih acc
    · rw [if_neg hx, if_neg hx, ih (acc ++ [g x])]
      rw [dedupAux_congr (xs.map g) (acc ++ [g x]) (g x :: acc)
            (fun a => by simp [List.mem_append, or_comm])]
      simp [List.append_assoc]

/-! ## The phone pipeline as an ordered de-duplication of the merged
raw match lists -/

theorem extract_phone_numbers_eq (text : String) :
    extract_phone_numbers text = dedupKeepFirst ((phonesRaw text).map cleanPhone) := by
  have h₁ : phone_patterns.foldl
      (fun acc pattern => acc ++ (findAll pattern text.data).map String.mk) []
      = phonesRaw text := by
    simp [phone_patterns, phonesRaw]
  show (phone_patterns.foldl
      (fun acc pattern => acc ++ (findAll pattern text.data).map String.mk) []).foldl
      (fun cleaned_phones phone =>
        if cleanPhone phone ∈ cleaned_phones then cleaned_phones
        else cleaned_phones ++ [cleanPhone phone]) []
      = dedupKeepFirst ((phonesRaw text).map cleanPhone)
  rw [h₁, foldl_dedupAux]
  simp [dedupKeepFirst]

/-! ## Inversion lemmas for the backtracking matcher -/

theorem reMatch_eps_mem {f : Nat} {s u t : List Char}
    (h : (u, t) ∈ reMatch f .eps s) : u = [] ∧ t = s := by
  cases f with
  | zero => simp [reMatch] at h
  | succ f => simpa [reMatch] using h

theorem reMatch_cls_mem {f : Nat} {p : Char → Bool} {s u t : List Char}
    (h : (u, t) ∈ reMatch f (.cls p) s) :
    ∃ c s', s = c :: s' ∧ p c = true ∧ u = [c] ∧ t = s' := by
  cases f with
  | zero => simp [reMatch] at h
  | succ f =>
    cases s with
    | nil => simp [reMatch] at h
    | cons c s' =>
      by_cases hp : p c = true
      · simp [reMatch, hp] at h
        exact ⟨c, s', rfl, hp, h.1, h.2⟩
      · simp [reMatch, hp] at h

theorem reMatch_seq_mem {f : Nat} {a b : Re} {s u t : List Char}
    (h : (u, t) ∈ reMatch f (.seq a b) s) :
    ∃ f' u₁ t₁ u₂, f = f' + 1 ∧ u = u₁ ++ u₂
      ∧ (u₁, t₁) ∈ reMatch f' a s ∧ (u₂, t) ∈ reMatch f' b t₁ := by
  cases f with
  | zero => simp [reMatch] at h
  | succ f =>
    simp only [reMatch, List.mem_flatMap, List.mem_map] at h
    obtain ⟨⟨u₁, t₁⟩, h₁, ⟨u₂, t₂⟩, h₂, heq⟩ := h
    rw [Prod.mk.injEq] at heq
    exact ⟨f, u₁, t₁, u₂, rfl, heq.1.symm, h₁, heq.2 ▸ h₂⟩

theorem reMatch_alt_mem {f : Nat} {a b : Re} {s u t : List Char}
    (h : (u, t) ∈ reMatch f (.alt a b) s) :
    ∃ f', f = f' + 1 ∧ ((u, t) ∈ reMatch f' a s ∨ (u, t) ∈ reMatch f' b s) := by
  cases f with
  | zero => simp [reMatch] at h
  | succ f =>
    rw [reMatch] at h
    exact ⟨f, rfl, List.mem_append.mp h⟩

theorem reMatch_rep_mem {f : Nat} {r : Re} {lo : Nat} {hi : Option Nat} {s u t : List Char}
    (h : (u, t) ∈ reMatch (f + 1) (.rep r lo hi) s) :
    (u = [] ∧ t = s ∧ lo = 0)
      ∨ ∃ u₁ t₁ u₂, u = u₁ ++ u₂ ∧ (u₁, t₁) ∈ reMatch f r s
          ∧ (u₂, t) ∈ reMatch f (.rep r (lo - 1) (hi.map (· - 1))) t₁ := by
  rw [reMatch] at h
  have main : ∀ (hm : (u, t) ∈ (if hi = some 0 then [] else
      (reMatch f r s).flatMap fun uv =>
        if uv.1.isEmpty then []
        else (reMatch f (.rep r (lo - 1) (hi.map (· - 1))) uv.2).map fun vw =>
          (uv.1 ++ vw.1, vw.2))),
      ∃ u₁ t₁ u₂, u = u₁ ++ u₂ ∧ (u₁, t₁) ∈ reMatch f r s
        ∧ (u₂, t) ∈ reMatch f (.rep r (lo - 1) (hi.map (· - 1))) t₁ := by
    intro hm
    by_cases hhi : hi = some 0
    · simp [hhi] at hm
    · rw [if_neg hhi] at hm
      simp only [List.mem_flatMap] at hm
      obtain ⟨⟨u₁, t₁⟩, h₁, hm⟩ := hm
      by_cases he : u₁.isEmpty
      · simp [he] at hm
      · rw [if_neg he] at hm
        simp only [List.mem_map] at hm
        obtain ⟨⟨u₂, t₂⟩, h₂, heq⟩ := hm
        rw [Prod.mk.injEq] at heq
        exact ⟨u₁, t₁, u₂, heq.1.symm, h₁, heq.2 ▸ h₂⟩
  by_cases hlo : lo = 0
  · rw [if_pos hlo] at h
    rcases List.mem_append.mp h with h | h
    · exact Or.inr (main h)
    · simp at h
      exact Or.inl ⟨h.1, h.2, hlo⟩
  · rw [if_neg hlo] at h
    exact Or.inr (main h)

/-- Every character consumed by a match comes from one of the pattern's
character classes. -/
theorem reMatch_chars :
    ∀ (f : Nat) (re : Re) (s u t : List Char),
      (u, t) ∈ reMatch f re s → ∀ c ∈ u, ReHasChar re c := by
  intro f
  induction f with
  | zero => intro re s u t h; simp [reMatch] at h
  | succ f ih =>
    intro re s u t h c hc
    cases re with
    | eps =>
      rcases reMatch_eps_mem h with ⟨rfl, _⟩
      simp at hc
    | cls p =>
      rcases reMatch_cls_mem h with ⟨c', s', _, hp, rfl, _⟩
      rcases List.mem_singleton.mp hc with rfl
      exact hp
    | seq a b =>
      rcases reMatch_seq_mem h with ⟨f', u₁, t₁, u₂, hf, rfl, h₁, h₂⟩
      rw [Nat.succ.injEq] at hf
      subst hf
      show ReHasChar a c ∨ ReHasChar b c
      rcases List.mem_append.mp hc with hcu | hcu
      · exact Or.inl (ih a s u₁ t₁ h₁ c hcu)
      · exact Or.inr (ih b t₁ u₂ t h₂ c hcu)
    | alt a b =>
      rcases reMatch_alt_mem h with ⟨f', hf, h'⟩
      rw [Nat.succ.injEq] at hf
      subst hf
      show ReHasChar a c ∨ ReHasChar b c
      rcases h' with h' | h'
      · exact Or.inl (ih a s u t h' c hc)
      · exact Or.inr (ih b s u t h' c hc)
    | rep r lo hi =>
      rcases reMatch_rep_mem h with ⟨rfl, _, _⟩ | ⟨u₁, t₁, u₂, rfl, h₁, h₂⟩
      · simp at hc
      · show ReHasChar r c
        rcases List.mem_append.mp hc with hcu | hcu
        · exact ih r s u₁ t₁ h₁ c hcu
        · exact ih (.rep r (lo - 1) (hi.map (· - 1))) t₁ u₂ t h₂ c hcu

/-- Every non-empty string `findall` returns is a match of the pattern at
some suffix of the scanned text. -/
theorem scanAll_mem :
    ∀ (f : Nat) (re : Re) (s m : List Char),
      m ∈ scanAll f re s →
        m = [] ∨ ∃ s₀ t, (m, t) ∈ reMatch (matchFuel re s₀) re s₀ := by
  intro f
  induction f with
  | zero => intro re s m h; simp [scanAll] at h
  | succ f ih =>
    intro re s m h
    have hhead : ∀ (s₀ : List Char) u t, pyMatch re s₀ = some (u, t) →
        (u, t) ∈ reMatch (matchFuel re s₀) re s₀ := by
      intro s₀ u t hpm
      have hh : (reMatch (matchFuel re s₀) re s₀).head? = some (u, t) := hpm
      cases hlist : reMatch (matchFuel re s₀) re s₀ with
      | nil => rw [hlist] at hh; simp at hh
      | cons x xs =>
        rw [hlist] at hh
        simp only [List.head?_cons, Option.some.injEq] at hh
        rw [← hh]
        exact List.mem_cons_self x xs
    cases s with
    | nil =>
      rw [scanAll] at h
      cases hpm : pyMatch re [] with
      | none => rw [hpm] at h; simp at h
      | some ut =>
        obtain ⟨u, t⟩ := ut
        rw [hpm] at h
        dsimp only at h
        rcases List.mem_singleton.mp h with rfl
        exact Or.inr ⟨[], t, hhead [] m t hpm⟩
    | cons c s' =>
      rw [scanAll] at h
      cases hpm : pyMatch re (c :: s') with
      | none =>
        rw [hpm] at h
        exact ih re s' m h
      | some ut =>
        obtain ⟨u, t⟩ := ut
        rw [hpm] at h
        dsimp only at h
        by_cases he : u.isEmpty
        · rw [if_pos he] at h
          rcases List.mem_cons.mp h with rfl | h
          · exact Or.inl (List.isEmpty_iff.mp he)
          · exact ih re s' m h
        · rw [if_neg he] at h
          rcases List.mem_cons.mp h with rfl | h
          · exact Or.inr ⟨c :: s', t, hhead (c :: s') m t hpm⟩
          · exact ih re t m h

theorem findAll_mem {re : Re} {s m : List Char} (h : m ∈ findAll re s) :
    m = [] ∨ ∃ s₀ t, (m, t) ∈ reMatch (matchFuel re s₀) re s₀ :=
  scanAll_mem (s.length + 1) re s m h

/-! ## Character sets of the phone patterns -/

/-- The characters the phone patterns can consume besides a leading `+`:
digits, separators, parentheses, and whitespace. -/
def phoneTailChar (c : Char) : Prop :=
  c.isDigit = true ∨ isPhoneSep c = true ∨ c = '(' ∨ c = ')' ∨ isPyWhitespace c = true

theorem hasChar_tailA {c : Char} (h : ReHasChar phoneTailA c) : phoneTailChar c := by
  simp only [phoneTailA, Re.seqs, Re.opt, Re.lit, ReHasChar] at h
  unfold phoneTailChar
  simp only [beq_iff_eq] at h
  tauto

theorem hasChar_patternB {c : Char} (h : ReHasChar phonePatternB c) : phoneTailChar c := by
  simp only [phonePatternB, Re.seqs, Re.opt, Re.lit, ReHasChar] at h
  unfold phoneTailChar
  tauto

theorem hasChar_patternC {c : Char} (h : ReHasChar phonePatternC c) : phoneTailChar c := by
  simp only [phonePatternC, Re.seqs, Re.opt, Re.lit, ReHasChar] at h
  unfold phoneTailChar
  simp only [beq_iff_eq] at h
  tauto

theorem keep_of_phoneTailChar {c : Char} (hc : phoneTailChar c)
    (hk : (c.isDigit || c == '+') = true) : c.isDigit = true := by
  rcases hc with h | h | h | h | h
  · exact h
  · rcases (show (c = '-' ∨ c = '.') ∨ c = ' ' by simpa [isPhoneSep] using h)
      with (rfl | rfl) | rfl <;> exact absurd hk (by decide)
  · subst h; exact absurd hk (by decide)
  · subst h; exact absurd hk (by decide)
  · rcases (show ((((c = ' ' ∨ c = '\t') ∨ c = '\n') ∨ c = '\x0b') ∨ c = '\x0c') ∨ c = '\r'
        by simpa [isPyWhitespace] using h)
      with ((((rfl | rfl) | rfl) | rfl) | rfl) | rfl <;> exact absurd hk (by decide)

theorem reMatch_optLit_mem {f : Nat} {ch : Char} {s u t : List Char}
    (h : (u, t) ∈ reMatch f (Re.opt (Re.lit ch)) s) : u = [ch] ∨ u = [] := by
  rcases reMatch_alt_mem h with ⟨f', _, h' | h'⟩
  · rcases reMatch_cls_mem h' with ⟨c', s', _, hp, rfl, _⟩
    exact Or.inl (by rw [show c' = ch by simpa using hp])
  · exact Or.inr (reMatch_eps_mem h').1

/-- A match whose characters all lie in the plus-free phone alphabet
cleans to a pure digit string. -/
theorem shape_no_plus {m : List Char} (hm : ∀ c ∈ m, phoneTailChar c) :
    phoneDigitsShape (cleanPhone (String.mk m)) := by
  refine ⟨m.filter (fun c => c.isDigit || c == '+'), ?_, Or.inl rfl⟩
  intro c hc
  rcases List.mem_filter.mp hc with ⟨hcm, hk⟩
  exact keep_of_phoneTailChar (hm c hcm) hk

/-- A pattern (a) match cleans to a digit string with at most one leading
`+`. -/
theorem shape_patternA {f : Nat} {s u t : List Char}
    (h : (u, t) ∈ reMatch f phonePatternA s) :
    phoneDigitsShape (cleanPhone (String.mk u)) := by
  rcases reMatch_seq_mem h with ⟨f', u₁, t₁, u₂, _, rfl, h₁, h₂⟩
  have h₂c : ∀ c ∈ u₂, phoneTailChar c := fun c hc =>
    hasChar_tailA (reMatch_chars f' phoneTailA t₁ u₂ t h₂ c hc)
  have hdig : ∀ c ∈ u₂.filter (fun c => c.isDigit || c == '+'), c.isDigit = true := by
    intro c hc
    rcases List.mem_filter.mp hc with ⟨hcm, hk⟩
    exact keep_of_phoneTailChar (h₂c c hcm) hk
  refine ⟨u₂.filter (fun c => c.isDigit || c == '+'), hdig, ?_⟩
  have hdata : (cleanPhone (String.mk (u₁ ++ u₂))).data
      = u₁.filter (fun c => c.isDigit || c == '+')
        ++ u₂.filter (fun c => c.isDigit || c == '+') := by
    simp [cleanPhone, List.filter_append]
  rcases reMatch_optLit_mem h₁ with rfl | rfl
  · right; rw [hdata]; rfl
  · left; rw [hdata]; rfl

/-! ## Claim C7: merge order and ordered de-duplication of phones -/

/-- **C7**: for all input text, the phone extractor concatenates the raw
match lists of patterns a, b, c in that order, cleans each raw match by
stripping every character that is not a digit or `+`, and keeps a cleaned
string only on first occurrence, so the output equals the first-seen-order
de-duplication of the cleaned a–b–c merge and contains no duplicates. -/
theorem c7_phone_merge_dedup (text : String) :
    extract_phone_numbers text
        = dedupKeepFirst
            (((findAll phonePatternA text.data).map String.mk
              ++ (findAll phonePatternB text.data).map String.mk
              ++ (findAll phonePatternC text.data).map String.mk).map cleanPhone)
      ∧ (extract_phone_numbers text).Nodup := by
  constructor
  · exact extract_phone_numbers_eq text
  · rw [extract_phone_numbers_eq]
    exact dedupAux_nodup _ []

/-! ## Claim C6: shape of extracted phone strings -/

/-- **C6**: every string the phone extractor outputs consists only of
digit characters with at most one `+`, which, if present, is the leading
character (this is `phoneDigitsShape`). -/
theorem c6_phone_output_shape (text p : String)
    (h : p ∈ extract_phone_numbers text) : phoneDigitsShape p := by
  rw [extract_phone_numbers_eq, dedupKeepFirst] at h
  have h' : p ∈ (phonesRaw text).map cleanPhone :=
    mem_of_mem_dedupAux _ [] p h
  rcases List.mem_map.mp h' with ⟨q, hq, rfl⟩
  simp only [phonesRaw, List.mem_append, List.mem_map] at hq
  rcases hq with (⟨m, hm, rfl⟩ | ⟨m, hm, rfl⟩) | ⟨m, hm, rfl⟩
  · rcases findAll_mem hm with rfl | ⟨s₀, t, hmm⟩
    · exact ⟨[], by simp, Or.inl rfl⟩
    · exact shape_patternA hmm
  · rcases findAll_mem hm with rfl | ⟨s₀, t, hmm⟩
    · exact ⟨[], by simp, Or.inl rfl⟩
    · exact shape_no_plus fun c hc =>
        hasChar_patternB (reMatch_chars _ _ _ _ _ hmm c hc)
  · rcases findAll_mem hm with rfl | ⟨s₀, t, hmm⟩
    · exact ⟨[], by simp, Or.inl rfl⟩
    · exact shape_no_plus fun c hc =>
        hasChar_patternC (reMatch_chars _ _ _ _ _ hmm c hc)

/-- Witness for C6 at a concrete input: `"1234567890"` is produced for
the text `"1234567890"` and has the digits-with-optional-leading-plus
shape. -/
theorem c6_phone_output_shape_witness :
    "1234567890" ∈ extract_phone_numbers "1234567890"
      ∧ phoneDigitsShape "1234567890" :=
  ⟨by decide, c6_phone_output_shape "1234567890" "1234567890" (by decide)⟩

/-! ## Claim C5: placeholder-email suppression -/

/-- **C5**: no extracted email contains (case-insensitively) the
substring `example.com` or `domain.com`. -/
theorem c5_no_placeholder_emails (text email : String)
    (h : email ∈ extract_emails text) :
    strContains (strLower email) "example.com" = false
      ∧ strContains (strLower email) "domain.com" = false := by
  have hp := (List.mem_filter.mp h).2
  simp only [fakeDomains, List.any_cons, List.any_nil, Bool.or_false,
    Bool.not_eq_true', Bool.or_eq_false_iff] at hp
  exact hp

/-- Witness for C5 at a concrete input: `"a@b.co"` is extracted from
`"write a@b.co"` and contains neither placeholder domain. -/
theorem c5_no_placeholder_emails_witness :
    "a@b.co" ∈ extract_emails "write a@b.co"
      ∧ (strContains (strLower "a@b.co") "example.com" = false
          ∧ strContains (strLower "a@b.co") "domain.com" = false) :=
  ⟨by decide, c5_no_placeholder_emails "write a@b.co" "a@b.co" (by decide)⟩

/-! ## Region selection lemmas -/

/-- After the term loop, only the elements gathered for the final term
`"footer"` remain (`rfl` because the fold rebinds the accumulator). -/
theorem find_contact_sections_eq (doc : Doc) :
    find_contact_sections doc
      = ((elementsForTerm doc "footer").map Elem.stripText).filter
          (fun text => !(text == "")) := rfl

/-- Every element gathered for a term of the list is a contact-like
element of the document. -/
theorem mem_elementsForTerm {doc : Doc} {term : String} {e : Elem}
    (hterm : term ∈ contact_terms) (h : e ∈ elementsForTerm doc term) :
    e ∈ doc.elements ∧ isContactLike e = true := by
  simp only [elementsForTerm, List.mem_append, List.mem_filter] at h
  have hcl : attrMatches term e.classAttr = true → isContactLike e = true := by
    intro hc
    simp only [isContactLike, Bool.or_eq_true, List.any_eq_true]
    exact Or.inl (Or.inl ⟨term, hterm, Or.inl hc⟩)
  rcases h with ((⟨hm, hp⟩ | ⟨hm, hp⟩) | ⟨hm, hp⟩) | ⟨hm, hp⟩
  · exact ⟨hm, hcl hp⟩
  · refine ⟨hm, ?_⟩
    simp only [isContactLike, Bool.or_eq_true, List.any_eq_true]
    exact Or.inl (Or.inl ⟨term, hterm, Or.inr hp⟩)
  · refine ⟨hm, ?_⟩
    simp only [isContactLike, Bool.or_eq_true]
    exact Or.inl (Or.inr hp)
  · refine ⟨hm, ?_⟩
    rcases (Bool.and_eq_true _ _).mp hp with ⟨_, hp₂⟩
    exact hcl hp₂

/-! ## Claim C10: contact-like elements with empty text -/

/-- **C10**: when every contact-like element of the document (footers
included) has empty stripped text, region selection returns no fragment,
extraction falls back to the full document text, and the record's source
is "Full page scan" even though contact-like elements exist. -/
theorem c10_empty_text_full_page (url : String) (doc : Doc)
    (h : ∀ e ∈ doc.elements, isContactLike e = true → e.stripText = "") :
    find_contact_sections doc = []
      ∧ allText doc = doc.fullText
      ∧ (scrape_page url (.success doc)).source = "Full page scan" := by
  have hfs : find_contact_sections doc = [] := by
    rw [find_contact_sections_eq, List.filter_eq_nil_iff]
    intro t ht
    rcases List.mem_map.mp ht with ⟨e, he, rfl⟩
    rcases mem_elementsForTerm (by decide) he with ⟨hmem, hlike⟩
    rw [h e hmem hlike]
    decide
  refine ⟨hfs, ?_, ?_⟩
  · show (if (find_contact_sections doc).isEmpty then doc.fullText
        else String.intercalate " " (find_contact_sections doc)) = doc.fullText
    rw [hfs]
    rfl
  · show (if (find_contact_sections doc).isEmpty then "Full page scan"
        else "Contact section") = "Full page scan"
    rw [hfs]
    rfl

/-- Witness for C10: a document holding an empty footer and an empty
`Contact-Us` div falls back to the full page text. -/
theorem c10_empty_text_full_page_witness :
    find_contact_sections emptyMarkersDoc = []
      ∧ allText emptyMarkersDoc = emptyMarkersDoc.fullText
      ∧ (scrape_page "http://site.test" (.success emptyMarkersDoc)).source
          = "Full page scan" :=
  c10_empty_text_full_page "http://site.test" emptyMarkersDoc (by decide)

/-! ## Claim C8: footer-only contact markers -/

/-- **C8**: for a document whose footers are the only contact-like
markers (no class or id matches any term) and whose non-empty footer text
is `t` holding an extractable email `e`, the record's source is
"Contact section" and `e` is among the extracted emails. -/
theorem c8_footer_email_contact_section (url t e : String) (doc : Doc)
    (hattr : ∀ el ∈ doc.elements, ∀ term ∈ contact_terms,
      attrMatches term el.classAttr = false ∧ attrMatches term el.idAttr = false)
    (hfooter : ((doc.elements.filter fun el => el.tag == "footer").map Elem.stripText).filter
        (fun text => !(text == "")) = [t])
    (he : e ∈ extract_emails t) :
    (scrape_page url (.success doc)).source = "Contact section"
      ∧ e ∈ extract_emails (allText doc)
      ∧ (scrape_page url (.success doc)).emails
          = String.intercalate ", " (extract_emails (allText doc)) := by
  have hclass : ∀ term ∈ contact_terms,
      doc.elements.filter (fun el => attrMatches term el.classAttr) = [] := by
    intro term hterm
    rw [List.filter_eq_nil_iff]
    intro el hel
    rw [(hattr el hel term hterm).1]
    decide
  have hid : doc.elements.filter (fun el => attrMatches "footer" el.idAttr) = [] := by
    rw [List.filter_eq_nil_iff]
    intro el hel
    rw [(hattr el hel "footer" (by decide)).2]
    decide
  have hsec : doc.elements.filter
      (fun el => el.tag == "section" && attrMatches "footer" el.classAttr) = [] := by
    rw [List.filter_eq_nil_iff]
    intro el hel
    rw [(hattr el hel "footer" (by decide)).1]
    simp
  have h₁ : elementsForTerm doc "footer"
      = doc.elements.filter (fun el => el.tag == "footer") := by
    rw [elementsForTerm, hclass "footer" (by decide), hid, hsec]
    simp
  have hfs : find_contact_sections doc = [t] := by
    rw [find_contact_sections_eq, h₁]
    exact hfooter
  have hall : allText doc = t := by
    show (if (find_contact_sections doc).isEmpty then doc.fullText
        else String.intercalate " " (find_contact_sections doc)) = t
    rw [hfs]
    rfl
  have he' : e ∈ extract_emails (allText doc) := by rw [hall]; exact he
  have hne : (extract_emails (allText doc)).isEmpty = false :=
    List.isEmpty_eq_false.mpr (List.ne_nil_of_mem he')
  refine ⟨?_, he', ?_⟩
  · show (if (find_contact_sections doc).isEmpty then "Full page scan"
        else "Contact section") = "Contact section"
    rw [hfs]
    rfl
  · show (if (extract_emails (allText doc)).isEmpty then "No email found"
        else String.intercalate ", " (extract_emails (allText doc)))
        = String.intercalate ", " (extract_emails (allText doc))
    rw [hne]
    rfl

/-- Witness for C8: a document whose only element is a footer with the
text `"Email: sales@acme.org"`. -/
theorem c8_footer_email_contact_section_witness :
    (scrape_page "http://site.test" (.success footerEmailDoc)).source = "Contact section"
      ∧ "sales@acme.org" ∈ extract_emails (allText footerEmailDoc)
      ∧ (scrape_page "http://site.test" (.success footerEmailDoc)).emails
          = String.intercalate ", " (extract_emails (allText footerEmailDoc)) :=
  c8_footer_email_contact_section "http://site.test" "Email: sales@acme.org"
    "sales@acme.org" footerEmailDoc (by decide) (by decide) (by decide)

/-! ## Claim C3: per-URL error recovery -/

/-- **C3**: a request failure yields the sentinel record
`("Connection error", "Connection error", error text)` and any other
in-scrape failure yields `("Error", "Error", error text)`; `scrape_page`
is a total function of the outcome, so processing one page never aborts
the run. -/
theorem c3_error_records (url desc : String) :
    scrape_page url (.requestError desc)
        = { url := url, emails := "Connection error"
          , phone_numbers := "Connection error", source := desc }
      ∧ scrape_page url (.otherError desc)
        = { url := url, emails := "Error", phone_numbers := "Error", source := desc } :=
  ⟨rfl, rfl⟩

/-! ## Claim C4: one row per URL, in order -/

/-- **C4 (amended)**: the run produces exactly one record per input URL,
in input order; for a non-empty URL list the CSV is the header row
followed by exactly one data row per record, in that order (for the empty
list pandas writes no header, see the C9 theorem). -/
theorem c4_one_row_per_url (fetch : String → FetchOutcome) (urls : List String) :
    (scrape_multiple_urls fetch urls).map Record.url = urls
      ∧ (scrape_multiple_urls fetch urls).length = urls.length
      ∧ (urls ≠ [] →
          to_csv (scrape_multiple_urls fetch urls)
            = csvHeader :: (scrape_multiple_urls fetch urls).map recordRow) := by
  have hurl : ∀ u o, (scrape_page u o).url = u := by
    intro u o
    cases o <;> rfl
  refine ⟨?_, ?_, ?_⟩
  · rw [scrape_multiple_urls, List.map_map]
    have hcomp : (Record.url ∘ fun url => scrape_page url (fetch url)) = id := by
      funext u
      exact hurl u (fetch u)
    rw [hcomp, List.map_id]
  · rw [scrape_multiple_urls, List.length_map]
  · intro hne
    have hrec : (scrape_multiple_urls fetch urls).isEmpty = false := by
      refine List.isEmpty_eq_false.mpr ?_
      rw [scrape_multiple_urls]
      simpa [List.map_eq_nil_iff] using hne
    rw [to_csv, hrec]
    rfl

/-- Counterexample to C4 as stated: for the empty URL list the written
file is a single empty line, not the header row. -/
theorem c4_empty_list_no_header :
    ¬ (to_csv (scrape_multiple_urls failingFetch [])
        = csvHeader :: (scrape_multiple_urls failingFetch []).map recordRow) := by
  decide

/-- Witness for C4 at a concrete input: one failing URL gives a header
row plus one data row. -/
theorem c4_one_row_per_url_witness :
    to_csv (scrape_multiple_urls failingFetch ["http://a.test"])
      = csvHeader :: (scrape_multiple_urls failingFetch ["http://a.test"]).map recordRow :=
  (c4_one_row_per_url failingFetch ["http://a.test"]).2.2 (by decide)

/-! ## Claim C9: the empty URL list -/

/-- **C9**: for an empty input URL list the returned table is empty, the
data frame has no columns, and the written file is a single empty line —
in particular it contains neither the header row nor any data row. -/
theorem c9_empty_url_list (fetch : String → FetchOutcome) :
    scrape_multiple_urls fetch [] = []
      ∧ dfColumns (scrape_multiple_urls fetch []) = []
      ∧ to_csv (scrape_multiple_urls fetch []) = [""]
      ∧ csvHeader ∉ to_csv (scrape_multiple_urls fetch []) := by
  refine ⟨rfl, rfl, rfl, fun hmem => ?_⟩
  rw [show to_csv (scrape_multiple_urls fetch []) = [""] from rfl] at hmem
  exact absurd (List.mem_singleton.mp hmem) (by decide)

/-! ## Claim C2: the delay default -/

/-- Counterexample to C2 as stated: the constructor's default delay is
not 2. -/
theorem c2_default_delay_not_two : ¬ mkScraperDefault.delay = 2 := by
  decide

/-- **C2 (amended)**: when the caller does not supply `delay`,
`FocusedContactScraper.__init__` defaults it to 1 time-unit (the example
`main()` passes `delay=2` explicitly, which is the spec's likely source
of confusion). -/
theorem c2_default_delay_is_one : mkScraperDefault.delay = 1 := rfl

/-! ## Claim C1: the clobbered term loop -/

/-- **C1 (code bug)**: a document whose single element has
`class="contact"` and non-empty text — so the claim (and the function's
own docstring) expect a collected fragment and source "Contact section" —
yields no fragment and "Full page scan", because the loop rebinds
`elements` on every term iteration and extracts text only after the loop,
so all terms except the last (`"footer"`) are dead. -/
theorem c1_contact_class_not_collected :
    (contactClassDoc.elements.filter fun e => attrMatches "contact" e.classAttr)
        = contactClassDoc.elements
      ∧ contactClassDoc.elements ≠ []
      ∧ (∀ e ∈ contactClassDoc.elements, ¬ e.tag = "footer")
      ∧ find_contact_sections contactClassDoc = []
      ∧ (scrape_page "http://site.test" (.success contactClassDoc)).source
          = "Full page scan" :=
  ⟨by decide, by decide, by decide, by decide, by decide⟩
